import Mathlib

/-!
Shallow embedding of the Hacker game engine from `a3.py` (classes
`Entity`, `Player`, `Destroyable`, `Collectable`, `Blocker`, `Grid`,
`Game`).  Python dicts are modelled as insertion-ordered association
lists; the stateful methods become pure functions on a `Game` record.
A method that can raise a Python exception returns a `Bool` flag next
to the post-state (`true` means an exception was raised; the state
component is the objects' state at the moment the exception
propagates, since Python mutations made before the raise persist).
-/

namespace Hacker

/-- Display character of a player.  The value `'P'` is fixed by
`a3.py`'s own docstring of `Player.display`; the constant itself lives
in the missing `a3_support.py`. -/
def PLAYER : String := "P"

/-- Display character of a destroyable, `'D'` per `Destroyable.display`'s
docstring. -/
def DESTROYABLE : String := "D"

/-- Display character of a collectable, `'C'` per `Collectable.display`'s
docstring. -/
def COLLECTABLE : String := "C"

/-- Display character of a blocker, `'B'` per `Blocker.display`'s
docstring. -/
def BLOCKER : String := "B"

/-- Modelled from the spec: `MOVE` is defined in the missing
`a3_support.py`; the spec fixes the per-step gravity offset to
`(0, -1)`. -/
def MOVE : Int × Int := (0, -1)

/-- Modelled from the spec: `DIRECTIONS` is defined in the missing
`a3_support.py`; the spec describes a fixed enumerated set of
directions — "left/right, or equivalently the four compass-style keys
the presentation layer binds". -/
def DIRECTIONS : List String := ["A", "LEFT", "D", "RIGHT"]

/-- Modelled from the spec: `ROTATIONS` is defined in the missing
`a3_support.py`; the spec says each direction maps to a signed
x-offset of plus/minus 1 with no y-change, aligned with `DIRECTIONS`
by index. -/
def ROTATIONS : List (Int × Int) := [(-1, 0), (-1, 0), (1, 0), (1, 0)]

/-- Modelled from the spec: `ENTITY_TYPES` is defined in the missing
`a3_support.py`; the spec says spawn kinds are drawn from
{Destroyable, Collectable}, "the two core kinds". -/
def ENTITY_TYPES : List String := [DESTROYABLE, COLLECTABLE]

/-- Modelled from the spec: the `DESTROY` shot-type constant from the
missing `a3_support.py` (spec: shot_type is one of {Destroy, Collect}).
Its string value is immaterial to the engine; only its distinctness
from `COLLECT` matters. -/
def DESTROY : String := "DESTROY"

/-- Modelled from the spec: the `COLLECT` shot-type constant from the
missing `a3_support.py`. -/
def COLLECT : String := "COLLECT"

/-- Modelled from the spec: `Position` from the missing
`a3_support.py` — an immutable 2D integer coordinate with structural
equality and hashing (it is used as a dict key). -/
structure Position where
  x : Int
  y : Int
deriving DecidableEq, Repr

/-- The closed `Entity` variant: `Player`, `Destroyable`, `Collectable`,
`Blocker` subclasses of `a3.py`'s `Entity`.  No instance carries state,
so each Python object is modelled by its kind alone. -/
inductive Entity where
  | player
  | destroyable
  | collectable
  | blocker
deriving DecidableEq, Repr

/-- `Entity.display` of each subclass in `a3.py`. -/
def Entity.display : Entity → String
  | .player => PLAYER
  | .destroyable => DESTROYABLE
  | .collectable => COLLECTABLE
  | .blocker => BLOCKER

/-- Python dict assignment `d[k] = v` on an insertion-ordered
association list: overwriting an existing key keeps its position,
a fresh key is appended at the end. -/
def dictSet (l : List (Position × Entity)) (k : Position) (v : Entity) :
    List (Position × Entity) :=
  if l.any (fun kv => decide (kv.1 = k)) then
    l.map (fun kv => if kv.1 = k then (k, v) else kv)
  else l ++ [(k, v)]

/-- Python `d.get(k)` on the association list. -/
def dictGet (l : List (Position × Entity)) (k : Position) : Option Entity :=
  (l.find? (fun kv => decide (kv.1 = k))).map (fun kv => kv.2)

/-- Python `d.pop(k)` (guarded by `k in d`, so absence is a no-op):
drop the entry with key `k`, keeping the order of the others. -/
def dictRemove (l : List (Position × Entity)) (k : Position) :
    List (Position × Entity) :=
  l.filter (fun kv => !decide (kv.1 = k))

/-- The keys of an association list, in insertion order. -/
def dictKeys (l : List (Position × Entity)) : List Position :=
  l.map Prod.fst

/-- `a3.py`'s `Grid`: a fixed size and the `_entities` dict. -/
structure Grid where
  size : Nat
  entities : List (Position × Entity)
deriving DecidableEq, Repr

/-- `Grid.get_size`. -/
def Grid.get_size (g : Grid) : Nat := g.size

/-- `Grid.in_bounds`: true iff `0 ≤ x < size` and `1 ≤ y < size`
(row 0 is the player's row and is never grid-addressable). -/
def Grid.in_bounds (g : Grid) (p : Position) : Bool :=
  decide (0 ≤ p.x) && decide (p.x < (g.size : Int)) &&
    decide (1 ≤ p.y) && decide (p.y < (g.size : Int))

/-- `Grid.add_entity`: insert only when in bounds, otherwise a silent
no-op. -/
def Grid.add_entity (g : Grid) (p : Position) (e : Entity) : Grid :=
  if g.in_bounds p then { g with entities := dictSet g.entities p e } else g

/-- `Grid.get_entity`: the occupant of `p`, or `none`. -/
def Grid.get_entity (g : Grid) (p : Position) : Option Entity :=
  dictGet g.entities p

/-- `Grid.remove_entity`: remove the occupant of `p` if present. -/
def Grid.remove_entity (g : Grid) (p : Position) : Grid :=
  { g with entities := dictRemove g.entities p }

/-- `Grid.renew_entities`: swap in a whole new backing dict. -/
def Grid.renew_entities (g : Grid) (es : List (Position × Entity)) : Grid :=
  { g with entities := es }

/-- `Grid.serialise`: project every entry to coordinates and display
character. -/
def Grid.serialise (g : Grid) : List ((Int × Int) × String) :=
  g.entities.map (fun kv => ((kv.1.x, kv.1.y), kv.2.display))

/-- `a3.py`'s `Game` state: `_size`, `_game_over`, `_grid`,
`_player_position`, and the three counters (Python ints, so `Int`). -/
structure Game where
  size : Nat
  game_over : Bool
  grid : Grid
  player_position : Position
  num_collected : Int
  num_destroyed : Int
  total_shots : Int
deriving DecidableEq, Repr

/-- `Game.__init__(size)`: empty grid, player at `(size // 2, 0)`,
all counters zero, `game_over` false. -/
def Game.init (size : Nat) : Game :=
  { size := size
    game_over := false
    grid := { size := size, entities := [] }
    player_position := ⟨(size : Int) / 2, 0⟩
    num_collected := 0
    num_destroyed := 0
    total_shots := 0 }

/-- `Game.has_lost`: the stored `game_over` flag. -/
def Game.has_lost (g : Game) : Bool := g.game_over

/-- Python's `some_string == Player` in `Game._create_entity` compares a
string with the class object `Player`; for a string operand this is
always `False`. -/
def strEqClassPlayer (_display : String) : Bool := false

/-- `Game._create_entity`: dispatch on the display character.  The
first branch is the source's `display == Player` (string-vs-class
comparison, always false); an unmatched character raises
`NotImplementedError`, modelled as `Except.error ()`. -/
def create_entity (display : String) : Except Unit Entity :=
  if strEqClassPlayer display then .ok .player
  else if display = DESTROYABLE then .ok .destroyable
  else if display = COLLECTABLE then .ok .collectable
  else if display = BLOCKER then .ok .blocker
  else .error ()

/-- `Game.rotate_grid`: `DIRECTIONS.index(direction)` raises
`ValueError` when the direction is absent — before any mutation — and
otherwise every entry is re-keyed with its x shifted by the rotation
offset modulo `self._size` into a fresh dict, installed by
`renew_entities`.  (Python's `%` on a positive modulus agrees with
`Int.emod`.)  The returned flag is `true` iff the call raised. -/
def Game.rotate_grid (g : Game) (direction : String) : Game × Bool :=
  if direction ∈ DIRECTIONS then
    let idx := DIRECTIONS.findIdx (fun d => d = direction)
    let next_pos := ROTATIONS.getD idx (0, 0)
    let new_entities := g.grid.entities.foldl
      (fun acc kv =>
        dictSet acc ⟨(kv.1.x + next_pos.1) % (g.size : Int), kv.1.y⟩ kv.2) []
    ({ g with grid := g.grid.renew_entities new_entities }, false)
  else (g, true)

/-- The gravity loop of `Game.step`: walk the entries in dict order,
moving each by `MOVE`; an entity whose new y stays `≥ 1` is written
into `new_entities` (`acc`), any other `Destroyable` sets the loss and
breaks, any other entity is silently dropped.  Returns the
`new_entities` dict and whether the loop set `game_over`. -/
def gravityLoop (acc : List (Position × Entity)) :
    List (Position × Entity) → List (Position × Entity) × Bool
  | [] => (acc, false)
  | (p, e) :: rest =>
    let y := p.y + MOVE.2
    if 1 ≤ y then gravityLoop (dictSet acc ⟨p.x, y⟩ e) rest
    else if e = .destroyable then (acc, true)
    else gravityLoop acc rest

/-- One tick's worth of randomness for `Game.generate_entities`,
threaded explicitly (spec design note: "thread the randomness source
as an explicit injectable parameter").  Each field records what the
corresponding `random` call returned. -/
structure SpawnOracle where
  /-- result of `random.randint(0, size - 3)` -/
  entityCount : Nat
  /-- result of `random.choices(ENTITY_TYPES, k=entity_count)` -/
  kinds : List String
  /-- result of `random.randint(1, 4)` -/
  blockerRoll : Nat
  /-- result of `random.sample(range(size), total_count)` -/
  positions : List Int
deriving DecidableEq, Repr

/-- The source's `blocker = random.randint(1, 4) % 4 == 0`. -/
def SpawnOracle.blocker (o : SpawnOracle) : Bool := o.blockerRoll % 4 == 0

/-- The source's `total_count` (entity count, plus one for a blocker). -/
def SpawnOracle.totalCount (o : SpawnOracle) : Nat :=
  o.entityCount + (if o.blocker then 1 else 0)

/-- The source's `entities` list after the optional `BLOCKER` append. -/
def SpawnOracle.entityList (o : SpawnOracle) : List String :=
  o.kinds ++ (if o.blocker then [BLOCKER] else [])

/-- What CPython's `random` module can actually return for a grid of
side `size`: `randint(0, size-3)` is at most `size - 3`, `choices`
returns `entity_count` elements of `ENTITY_TYPES`, `randint(1, 4)` is
in `[1, 4]`, and `sample(range(size), total_count)` returns
`total_count` distinct integers in `[0, size)`. -/
def SpawnOracle.Valid (size : Nat) (o : SpawnOracle) : Prop :=
  (o.entityCount : Int) ≤ (size : Int) - 3 ∧
  o.kinds.length = o.entityCount ∧
  (∀ k ∈ o.kinds, k ∈ ENTITY_TYPES) ∧
  1 ≤ o.blockerRoll ∧ o.blockerRoll ≤ 4 ∧
  o.positions.length = o.totalCount ∧
  o.positions.Nodup ∧
  (∀ x ∈ o.positions, 0 ≤ x ∧ x < (size : Int))

instance (size : Nat) (o : SpawnOracle) : Decidable (o.Valid size) := by
  unfold SpawnOracle.Valid; infer_instance

/-- The placement loop at the end of `Game.generate_entities`: for each
`(pos, entity)` pair, build `Position(pos, size - 1)`, run
`_create_entity` (whose `NotImplementedError` aborts the loop with the
additions made so far kept, flag `true`), and `add_entity` it. -/
def spawnLoop (g : Game) : List (Int × String) → Game × Bool
  | [] => (g, false)
  | (pos, kind) :: rest =>
    let position : Position := ⟨pos, (g.grid.size : Int) - 1⟩
    match create_entity kind with
    | .error _ => (g, true)
    | .ok e => spawnLoop { g with grid := g.grid.add_entity position e } rest

/-- `Game.generate_entities`: `random.randint(0, size - 3)` raises
`ValueError` when its range is empty (`size - 3 < 0`, i.e. `size < 3`)
before anything is mutated; `random.sample(range(size), total_count)`
raises `ValueError` when `total_count > size`; otherwise each sampled
x is paired positionally with a kind and placed on the top row. -/
def Game.generate_entities (g : Game) (o : SpawnOracle) : Game × Bool :=
  if (g.grid.size : Int) - 3 < 0 then (g, true)
  else if (g.grid.size : Nat) < o.totalCount then (g, true)
  else spawnLoop g (o.positions.zip o.entityList)

/-- `Game.step`: the gravity pass over the current entries, then
`renew_entities`, then — unconditionally, even when the pass just set
`game_over` — `generate_entities`.  The flag is `true` iff
`generate_entities` raised. -/
def Game.step (g : Game) (o : SpawnOracle) : Game × Bool :=
  let moved := gravityLoop [] g.grid.entities
  let g1 : Game :=
    { g with
      game_over := g.game_over || moved.2
      grid := g.grid.renew_entities moved.1 }
  g1.generate_entities o

/-- The column scan of `Game.fire` over the remaining y values: stop
at the first occupied cell; a `Blocker` absorbs the shot, a
`Destroyable`/`Collectable` is removed (and counted) only under the
matching shot type, any other match ends the scan with no effect.  An
occupant matching no `isinstance` branch (a `Player`, never actually
stored) does not break, so the scan continues past it. -/
def fireLoop (g : Game) (shot_type : String) (x : Int) : List Int → Game
  | [] => g
  | y :: rest =>
    let position : Position := ⟨x, y⟩
    match g.grid.get_entity position with
    | none => fireLoop g shot_type x rest
    | some .blocker => g
    | some .destroyable =>
      if shot_type = DESTROY then
        { g with
          num_destroyed := g.num_destroyed + 1
          grid := g.grid.remove_entity position }
      else g
    | some .collectable =>
      if shot_type = COLLECT then
        { g with
          num_collected := g.num_collected + 1
          grid := g.grid.remove_entity position }
      else g
    | some .player => fireLoop g shot_type x rest

/-- Python's `range(1, size)` as a list of `Int`. -/
def scanRange (size : Nat) : List Int :=
  (List.range' 1 (size - 1)).map Int.ofNat

/-- `Game.fire`: increment `total_shots` first, then scan the player's
column `x = player.x` for `y` in `range(1, self._size)`. -/
def Game.fire (g : Game) (shot_type : String) : Game :=
  let g1 : Game := { g with total_shots := g.total_shots + 1 }
  fireLoop g1 shot_type g.player_position.x (scanRange g.size)

/-- One engine operation, as invoked by the presentation layer. -/
inductive Op where
  | rotate (direction : String)
  | step (o : SpawnOracle)
  | fire (shot_type : String)

/-- Run one operation, keeping the post-state (for a raising call, the
state at the moment the exception propagates). -/
def applyOp (g : Game) : Op → Game
  | .rotate d => (g.rotate_grid d).1
  | .step o => (g.step o).1
  | .fire s => g.fire s

/-- Run a whole interaction trace from a state. -/
def runOps (g : Game) (ops : List Op) : Game := ops.foldl applyOp g

/-- The re-keying a kept entity undergoes in the gravity pass:
y moves by `MOVE`'s y-offset, x is unchanged, the entity is kept. -/
def gravShift (kv : Position × Entity) : Position × Entity :=
  (⟨kv.1.x, kv.1.y + MOVE.2⟩, kv.2)

/-- The total function `'D'/'C'/'B'` to the entity `_create_entity`
builds for it (any other character makes `_create_entity` raise; the
`player` default is never used under a valid spawn alphabet). -/
def entityOfDisplay (s : String) : Entity :=
  if s = DESTROYABLE then .destroyable
  else if s = COLLECTABLE then .collectable
  else if s = BLOCKER then .blocker
  else .player

/-- The list of `(Position, Entity)` pairs one `generate_entities` call
appends to the grid: empty when the call raises (`size < 3`, or a
sample larger than the population), otherwise one pair per sampled x,
placed on the top row `y = size - 1`. -/
def spawnPairs (size : Nat) (o : SpawnOracle) : List (Position × Entity) :=
  if (size : Int) - 3 < 0 then []
  else if size < o.totalCount then []
  else (o.positions.zip o.entityList).map
    (fun xk => (⟨xk.1, (size : Int) - 1⟩, entityOfDisplay xk.2))

/-- Well-formedness of a `Game`: the grid records the game's size,
every stored entry is in bounds, and — as in a Python dict — keys are
unique.  Every state reachable through the engine API satisfies it. -/
def GameWF (g : Game) : Prop :=
  g.grid.size = g.size ∧
  (∀ kv ∈ g.grid.entities,
    0 ≤ kv.1.x ∧ kv.1.x < (g.grid.size : Int) ∧
    1 ≤ kv.1.y ∧ kv.1.y < (g.grid.size : Int)) ∧
  (dictKeys g.grid.entities).Nodup

instance (g : Game) : Decidable (GameWF g) := by
  unfold GameWF; infer_instance

/-- The counter invariant of the spec's data-model section. -/
def CounterInv (g : Game) : Prop :=
  0 ≤ g.num_collected ∧ 0 ≤ g.num_destroyed ∧ 0 ≤ g.total_shots ∧
  g.num_collected + g.num_destroyed ≤ g.total_shots

/-! ## Association-list (Python dict) lemmas -/

theorem dictSet_fresh (l : List (Position × Entity)) (k : Position)
    (v : Entity) (h : ∀ kv ∈ l, kv.1 ≠ k) :
    dictSet l k v = l ++ [(k, v)] := by
  unfold dictSet
  rw [if_neg]
  intro hc
  simp only [List.any_eq_true, decide_eq_true_eq] at hc
  rcases hc with ⟨kv, hkv, hk⟩
  exact h kv hkv hk

theorem mem_dictSet (l : List (Position × Entity)) (k : Position)
    (v : Entity) (kv : Position × Entity) (h : kv ∈ dictSet l k v) :
    kv ∈ l ∨ kv = (k, v) := by
  unfold dictSet at h
  by_cases hc : l.any (fun kv => decide (kv.1 = k))
  · rw [if_pos hc] at h
    rcases List.mem_map.1 h with ⟨qe, hqe, hq⟩
    by_cases he : qe.1 = k
    · right; rw [if_pos he] at hq; exact hq.symm
    · left; rw [if_neg he] at hq; exact hq ▸ hqe
  · rw [if_neg hc] at h
    rcases List.mem_append.1 h with h1 | h1
    · exact Or.inl h1
    · exact Or.inr (List.mem_singleton.1 h1)

theorem dictKeys_dictSet (l : List (Position × Entity)) (k : Position)
    (v : Entity) :
    dictKeys (dictSet l k v) =
      if l.any (fun kv => decide (kv.1 = k)) then dictKeys l
      else dictKeys l ++ [k] := by
  unfold dictSet dictKeys
  by_cases hc : l.any (fun kv => decide (kv.1 = k))
  · rw [if_pos hc, if_pos hc, List.map_map]
    apply List.map_congr_left
    intro kv _
    by_cases he : kv.1 = k
    · simp [he]
    · simp [he]
  · rw [if_neg hc, if_neg hc]
    simp

theorem dictKeys_dictSet_nodup (l : List (Position × Entity))
    (k : Position) (v : Entity) (h : (dictKeys l).Nodup) :
    (dictKeys (dictSet l k v)).Nodup := by
  rw [dictKeys_dictSet]
  by_cases hc : l.any (fun kv => decide (kv.1 = k))
  · rwa [if_pos hc]
  · rw [if_neg hc]
    have hk : k ∉ dictKeys l := by
      intro hmem
      rcases List.mem_map.1 hmem with ⟨kv, hkv, hq⟩
      exact hc (List.any_eq_true.2 ⟨kv, hkv, decide_eq_true hq⟩)
    simp [List.nodup_append, h, hk]

/-! ## `fire` lemmas -/

theorem fireLoop_spec (shot_type : String) (x : Int) (ys : List Int) :
    ∀ g : Game,
      (fireLoop g shot_type x ys).size = g.size ∧
      (fireLoop g shot_type x ys).game_over = g.game_over ∧
      (fireLoop g shot_type x ys).player_position = g.player_position ∧
      (fireLoop g shot_type x ys).total_shots = g.total_shots ∧
      (fireLoop g shot_type x ys).grid.size = g.grid.size ∧
      (fireLoop g shot_type x ys).grid.entities.Sublist g.grid.entities ∧
      ((fireLoop g shot_type x ys).num_collected = g.num_collected ∧
          (fireLoop g shot_type x ys).num_destroyed = g.num_destroyed ∨
        (fireLoop g shot_type x ys).num_collected = g.num_collected + 1 ∧
          (fireLoop g shot_type x ys).num_destroyed = g.num_destroyed ∨
        (fireLoop g shot_type x ys).num_collected = g.num_collected ∧
          (fireLoop g shot_type x ys).num_destroyed = g.num_destroyed + 1) := by
  induction ys with
  | nil =>
    intro g
    simp [fireLoop]
  | cons y rest ih =>
    intro g
    simp only [fireLoop]
    cases hget : g.grid.get_entity ⟨x, y⟩ with
    | none => exact ih g
    | some e =>
      cases e with
      | player => exact ih g
      | blocker => simp
      | destroyable =>
        by_cases hs : shot_type = DESTROY
        · rw [if_pos hs]
          exact ⟨rfl, rfl, rfl, rfl, rfl, List.filter_sublist _,
            Or.inr (Or.inr ⟨rfl, rfl⟩)⟩
        · rw [if_neg hs]; simp
      | collectable =>
        by_cases hs : shot_type = COLLECT
        · rw [if_pos hs]
          exact ⟨rfl, rfl, rfl, rfl, rfl, List.filter_sublist _,
            Or.inr (Or.inl ⟨rfl, rfl⟩)⟩
        · rw [if_neg hs]; simp

theorem fire_fields (g : Game) (shot_type : String) :
    (g.fire shot_type).size = g.size ∧
    (g.fire shot_type).game_over = g.game_over ∧
    (g.fire shot_type).player_position = g.player_position ∧
    (g.fire shot_type).total_shots = g.total_shots + 1 ∧
    (g.fire shot_type).grid.size = g.grid.size ∧
    (g.fire shot_type).grid.entities.Sublist g.grid.entities ∧
    ((g.fire shot_type).num_collected = g.num_collected ∧
        (g.fire shot_type).num_destroyed = g.num_destroyed ∨
      (g.fire shot_type).num_collected = g.num_collected + 1 ∧
        (g.fire shot_type).num_destroyed = g.num_destroyed ∨
      (g.fire shot_type).num_collected = g.num_collected ∧
        (g.fire shot_type).num_destroyed = g.num_destroyed + 1) := by
  have h := fireLoop_spec shot_type g.player_position.x (scanRange g.size)
    { g with total_shots := g.total_shots + 1 }
  exact h

/-- Scanning over cells known to be empty just walks past them. -/
theorem fireLoop_skip (g : Game) (shot_type : String) (x : Int)
    (ys1 ys2 : List Int)
    (h : ∀ y ∈ ys1, g.grid.get_entity ⟨x, y⟩ = none) :
    fireLoop g shot_type x (ys1 ++ ys2) = fireLoop g shot_type x ys2 := by
  induction ys1 with
  | nil => rfl
  | cons y rest ih =>
    have hy : g.grid.get_entity ⟨x, y⟩ = none := h y (by simp)
    simp only [List.cons_append, fireLoop, hy]
    exact ih (fun y hy2 => h y (by simp [hy2]))

/-! ## `spawnLoop` / `generate_entities` / `step` field lemmas -/

theorem spawnLoop_fields (pairs : List (Int × String)) :
    ∀ g : Game,
      (spawnLoop g pairs).1.size = g.size ∧
      (spawnLoop g pairs).1.game_over = g.game_over ∧
      (spawnLoop g pairs).1.player_position = g.player_position ∧
      (spawnLoop g pairs).1.num_collected = g.num_collected ∧
      (spawnLoop g pairs).1.num_destroyed = g.num_destroyed ∧
      (spawnLoop g pairs).1.total_shots = g.total_shots ∧
      (spawnLoop g pairs).1.grid.size = g.grid.size := by
  induction pairs with
  | nil =>
    intro g
    simp [spawnLoop]
  | cons xk rest ih =>
    intro g
    obtain ⟨pos, kind⟩ := xk
    simp only [spawnLoop]
    cases hc : create_entity kind with
    | error e => simp
    | ok e =>
      have h := ih { g with
        grid := g.grid.add_entity ⟨pos, (g.grid.size : Int) - 1⟩ e }
      have hsz : (g.grid.add_entity ⟨pos, (g.grid.size : Int) - 1⟩ e).size
          = g.grid.size := by
        unfold Grid.add_entity
        by_cases hb : g.grid.in_bounds ⟨pos, (g.grid.size : Int) - 1⟩ <;>
          simp [hb]
      exact ⟨h.1, h.2.1, h.2.2.1, h.2.2.2.1, h.2.2.2.2.1, h.2.2.2.2.2.1,
        h.2.2.2.2.2.2.trans hsz⟩

theorem generate_entities_fields (g : Game) (o : SpawnOracle) :
    (g.generate_entities o).1.size = g.size ∧
    (g.generate_entities o).1.game_over = g.game_over ∧
    (g.generate_entities o).1.player_position = g.player_position ∧
    (g.generate_entities o).1.num_collected = g.num_collected ∧
    (g.generate_entities o).1.num_destroyed = g.num_destroyed ∧
    (g.generate_entities o).1.total_shots = g.total_shots ∧
    (g.generate_entities o).1.grid.size = g.grid.size := by
  unfold Game.generate_entities
  by_cases h1 : (g.grid.size : Int) - 3 < 0
  · simp [h1]
  · rw [if_neg h1]
    by_cases h2 : (g.grid.size : Nat) < o.totalCount
    · simp [h2]
    · rw [if_neg h2]
      exact spawnLoop_fields _ g

theorem step_fields (g : Game) (o : SpawnOracle) :
    (g.step o).1.size = g.size ∧
    (g.step o).1.game_over =
      (g.game_over || (gravityLoop [] g.grid.entities).2) ∧
    (g.step o).1.player_position = g.player_position ∧
    (g.step o).1.num_collected = g.num_collected ∧
    (g.step o).1.num_destroyed = g.num_destroyed ∧
    (g.step o).1.total_shots = g.total_shots ∧
    (g.step o).1.grid.size = g.grid.size := by
  unfold Game.step
  have h := generate_entities_fields
    { g with
      game_over := g.game_over || (gravityLoop [] g.grid.entities).2
      grid := g.grid.renew_entities (gravityLoop [] g.grid.entities).1 } o
  exact h

theorem rotate_fields (g : Game) (direction : String) :
    (g.rotate_grid direction).1.size = g.size ∧
    (g.rotate_grid direction).1.game_over = g.game_over ∧
    (g.rotate_grid direction).1.player_position = g.player_position ∧
    (g.rotate_grid direction).1.num_collected = g.num_collected ∧
    (g.rotate_grid direction).1.num_destroyed = g.num_destroyed ∧
    (g.rotate_grid direction).1.total_shots = g.total_shots ∧
    (g.rotate_grid direction).1.grid.size = g.grid.size := by
  unfold Game.rotate_grid
  by_cases h : direction ∈ DIRECTIONS
  · simp [h, Grid.renew_entities]
  · simp [h]

/-! ## Gravity-pass lemmas -/

theorem dictKeys_append (l1 l2 : List (Position × Entity)) :
    dictKeys (l1 ++ l2) = dictKeys l1 ++ dictKeys l2 := by
  simp [dictKeys]

/-- In a duplicate-free keyed list `acc ++ kv :: rest`, no entry of
`acc` shares `kv`'s key. -/
theorem nodup_head_fresh (acc : List (Position × Entity))
    (kv : Position × Entity) (rest : List (Position × Entity))
    (h : (dictKeys (acc ++ kv :: rest)).Nodup) :
    ∀ qe ∈ acc, qe.1 ≠ kv.1 := by
  intro qe hqe heq
  rw [dictKeys_append] at h
  rcases List.nodup_append.1 h with ⟨_, _, hdisj⟩
  refine hdisj (a := kv.1) ?_ ?_
  · rw [← heq]
    exact List.mem_map_of_mem _ hqe
  · simp [dictKeys]

theorem mem_gravityLoop (l : List (Position × Entity)) :
    ∀ acc pe, pe ∈ (gravityLoop acc l).1 →
      pe ∈ acc ∨ ∃ qe ∈ l, 1 ≤ qe.1.y + MOVE.2 ∧ pe = gravShift qe := by
  induction l with
  | nil =>
    intro acc pe h
    exact Or.inl h
  | cons kv rest ih =>
    intro acc pe h
    obtain ⟨p, e⟩ := kv
    simp only [gravityLoop] at h
    by_cases hy : 1 ≤ p.y + MOVE.2
    · rw [if_pos hy] at h
      rcases ih _ pe h with hin | ⟨qe, hqe, hy2, hs⟩
      · rcases mem_dictSet _ _ _ _ hin with h1 | h1
        · exact Or.inl h1
        · exact Or.inr ⟨(p, e), by simp, hy, by simp [gravShift, h1]⟩
      · exact Or.inr ⟨qe, by simp [hqe], hy2, hs⟩
    · rw [if_neg hy] at h
      by_cases he : e = Entity.destroyable
      · rw [if_pos he] at h
        exact Or.inl h
      · rw [if_neg he] at h
        rcases ih _ pe h with hin | ⟨qe, hqe, hy2, hs⟩
        · exact Or.inl hin
        · exact Or.inr ⟨qe, by simp [hqe], hy2, hs⟩

theorem gravityLoop_nodup (l : List (Position × Entity)) :
    ∀ acc, (dictKeys acc).Nodup →
      (dictKeys (gravityLoop acc l).1).Nodup := by
  induction l with
  | nil =>
    intro acc h
    exact h
  | cons kv rest ih =>
    intro acc h
    obtain ⟨p, e⟩ := kv
    simp only [gravityLoop]
    by_cases hy : 1 ≤ p.y + MOVE.2
    · rw [if_pos hy]
      exact ih _ (dictKeys_dictSet_nodup _ _ _ h)
    · rw [if_neg hy]
      by_cases he : e = Entity.destroyable
      · rw [if_pos he]
        exact h
      · rw [if_neg he]
        exact ih _ h

/-- The break-on-first-loss shape of the gravity pass: if every entry
before `(p0, Destroyable)` survives the move and `p0` falls off, the
pass returns exactly the moved prefix (entries after the break are
dropped) with the loss flag set. -/
theorem gravityLoop_break (p0 : Position)
    (hfall : p0.y + MOVE.2 < 1) (post : List (Position × Entity))
    (pre : List (Position × Entity)) :
    ∀ acc, (∀ kv ∈ pre, 1 ≤ kv.1.y + MOVE.2) →
      (dictKeys (acc ++ pre.map gravShift)).Nodup →
      gravityLoop acc (pre ++ (p0, Entity.destroyable) :: post) =
        (acc ++ pre.map gravShift, true) := by
  induction pre with
  | nil =>
    intro acc _ _
    simp only [List.nil_append, List.map_nil, List.append_nil, gravityLoop]
    rw [if_neg (not_le.2 hfall)]
    simp
  | cons kv pre ih =>
    intro acc hpre hnd
    obtain ⟨p, e⟩ := kv
    have hy : 1 ≤ p.y + MOVE.2 := hpre (p, e) (by simp)
    simp only [List.cons_append, gravityLoop, if_pos hy]
    have hfresh : ∀ qe ∈ acc, qe.1 ≠ (⟨p.x, p.y + MOVE.2⟩ : Position) := by
      have := nodup_head_fresh acc (gravShift (p, e)) (pre.map gravShift)
        (by simpa [List.map_cons] using hnd)
      exact this
    rw [dictSet_fresh _ _ _ hfresh]
    have hnd2 : (dictKeys ((acc ++ [gravShift (p, e)]) ++
        pre.map gravShift)).Nodup := by
      have he : (acc ++ [gravShift (p, e)]) ++ pre.map gravShift =
          acc ++ (gravShift (p, e) :: pre.map gravShift) := by simp
      rw [he]
      simpa [List.map_cons] using hnd
    have := ih (acc ++ [gravShift (p, e)])
      (fun kv hkv => hpre kv (by simp [hkv])) hnd2
    rw [show acc ++ [((⟨p.x, p.y + MOVE.2⟩ : Position), e)] =
      acc ++ [gravShift (p, e)] from rfl]
    simp only [List.append_eq]
    rw [this]
    simp [List.map_cons]

/-! ## Integer mod helpers (Python `%` on a positive modulus) -/

theorem emodAddLeft (a b s : Int) : (a % s + b) % s = (a + b) % s := by
  rw [Int.add_emod, Int.emod_emod_of_dvd _ dvd_rfl, ← Int.add_emod]

theorem emod_shift_inj (s x1 x2 dx : Int) (h1 : 0 ≤ x1) (h2 : x1 < s)
    (h3 : 0 ≤ x2) (h4 : x2 < s)
    (he : (x1 + dx) % s = (x2 + dx) % s) : x1 = x2 := by
  have e1 : ((x1 + dx) % s + -dx) % s = x1 := by
    rw [emodAddLeft]
    have hx : x1 + dx + -dx = x1 := by ring
    rw [hx, Int.emod_eq_of_lt h1 h2]
  have e2 : ((x2 + dx) % s + -dx) % s = x2 := by
    rw [emodAddLeft]
    have hx : x2 + dx + -dx = x2 := by ring
    rw [hx, Int.emod_eq_of_lt h3 h4]
  rw [he, e2] at e1
  exact e1.symm

/-! ## Rotation lemmas -/

/-- Generic fact about the dict-building folds of `rotate_grid`: over
a keyed list whose keys never collide, each assignment appends. -/
theorem foldl_dictSet_fresh (l : List (Position × Entity)) :
    ∀ acc, (dictKeys (acc ++ l)).Nodup →
      l.foldl (fun a kv => dictSet a kv.1 kv.2) acc = acc ++ l := by
  induction l with
  | nil =>
    intro acc _
    simp
  | cons kv rest ih =>
    intro acc hnd
    simp only [List.foldl_cons]
    have hfresh : ∀ qe ∈ acc, qe.1 ≠ kv.1 := nodup_head_fresh acc kv rest hnd
    rw [dictSet_fresh _ _ _ hfresh]
    have hnd2 : (dictKeys ((acc ++ [(kv.1, kv.2)]) ++ rest)).Nodup := by
      have he : (acc ++ [(kv.1, kv.2)]) ++ rest = acc ++ kv :: rest := by simp
      rw [he]
      exact hnd
    rw [ih _ hnd2]
    simp

theorem foldl_dictSet_keyed (K : Position × Entity → Position)
    (l : List (Position × Entity)) :
    ∀ acc, l.foldl (fun a kv => dictSet a (K kv) kv.2) acc =
      (l.map (fun kv => (K kv, kv.2))).foldl
        (fun a kv => dictSet a kv.1 kv.2) acc := by
  induction l with
  | nil =>
    intro acc
    rfl
  | cons kv rest ih =>
    intro acc
    simp only [List.foldl_cons, List.map_cons]
    exact ih _

theorem foldl_dictSet_nodup (K : Position × Entity → Position)
    (l : List (Position × Entity)) :
    ∀ acc, (dictKeys acc).Nodup →
      (dictKeys (l.foldl (fun a kv => dictSet a (K kv) kv.2) acc)).Nodup := by
  induction l with
  | nil =>
    intro acc h
    exact h
  | cons kv rest ih =>
    intro acc h
    simp only [List.foldl_cons]
    exact ih _ (dictKeys_dictSet_nodup _ _ _ h)

theorem foldl_dictSet_mem (K : Position × Entity → Position)
    (l : List (Position × Entity)) :
    ∀ acc pe, pe ∈ l.foldl (fun a kv => dictSet a (K kv) kv.2) acc →
      pe ∈ acc ∨ ∃ qe ∈ l, pe = (K qe, qe.2) := by
  induction l with
  | nil =>
    intro acc pe h
    exact Or.inl h
  | cons kv rest ih =>
    intro acc pe h
    simp only [List.foldl_cons] at h
    rcases ih _ pe h with hin | ⟨qe, hqe, hs⟩
    · rcases mem_dictSet _ _ _ _ hin with h1 | h1
      · exact Or.inl h1
      · exact Or.inr ⟨kv, by simp, h1⟩
    · exact Or.inr ⟨qe, by simp [hqe], hs⟩

/-- Every valid direction resolves, through `DIRECTIONS.index` and
`ROTATIONS`, to a pure x-offset of `1` or `-1`. -/
theorem rotate_delta (d : String) (hd : d ∈ DIRECTIONS) :
    ∃ dx : Int, (dx = 1 ∨ dx = -1) ∧
      ROTATIONS.getD (DIRECTIONS.findIdx (fun e => e = d)) (0, 0) =
        (dx, 0) := by
  simp only [DIRECTIONS, List.mem_cons, List.not_mem_nil, or_false] at hd
  rcases hd with rfl | rfl | rfl | rfl
  · exact ⟨-1, Or.inr rfl, by decide⟩
  · exact ⟨-1, Or.inr rfl, by decide⟩
  · exact ⟨1, Or.inl rfl, by decide⟩
  · exact ⟨1, Or.inl rfl, by decide⟩

theorem positionExt (p q : Position) (hx : p.x = q.x) (hy : p.y = q.y) :
    p = q := by
  cases p
  cases q
  simp_all

/-- Shifting every key's x by a fixed offset modulo the grid side is
injective on in-range keys, so it keeps the key list duplicate-free. -/
theorem mapped_keys_nodup (l : List (Position × Entity)) (s dxx : Int)
    (hb : ∀ kv ∈ l, 0 ≤ kv.1.x ∧ kv.1.x < s)
    (hn : (dictKeys l).Nodup) :
    (dictKeys (l.map
      (fun kv => (⟨(kv.1.x + dxx) % s, kv.1.y⟩, kv.2)))).Nodup := by
  have hentities : l.Nodup := hn.of_map
  have hinj := List.inj_on_of_nodup_map hn
  have hkeys : dictKeys (l.map
      (fun kv => ((⟨(kv.1.x + dxx) % s, kv.1.y⟩ : Position), kv.2))) =
      l.map (fun kv => (⟨(kv.1.x + dxx) % s, kv.1.y⟩ : Position)) := by
    unfold dictKeys
    rw [List.map_map]
    rfl
  rw [hkeys]
  refine List.Nodup.map_on ?_ hentities
  intro kv1 h1 kv2 h2 heq
  simp only [Position.mk.injEq] at heq
  have hb1 := hb kv1 h1
  have hb2 := hb kv2 h2
  have hxx : kv1.1.x = kv2.1.x :=
    emod_shift_inj s kv1.1.x kv2.1.x dxx hb1.1 hb1.2 hb2.1 hb2.2 heq.1
  exact hinj h1 h2 (positionExt _ _ hxx heq.2)

/-- A valid rotation is exactly the atomic re-keying of every entry:
x shifted by the offset modulo the game size, y and entity unchanged,
with no exception raised. -/
theorem rotate_grid_eq (g : Game) (d : String) (dx : Int)
    (hd : d ∈ DIRECTIONS)
    (hrot : ROTATIONS.getD (DIRECTIONS.findIdx (fun e => e = d)) (0, 0) =
      (dx, 0))
    (hb : ∀ kv ∈ g.grid.entities, 0 ≤ kv.1.x ∧ kv.1.x < (g.size : Int))
    (hn : (dictKeys g.grid.entities).Nodup) :
    (g.rotate_grid d).1 =
      { g with grid := { g.grid with entities := (g.grid.entities.map
          (fun kv =>
            (⟨(kv.1.x + dx) % (g.size : Int), kv.1.y⟩, kv.2))) } } ∧
    (g.rotate_grid d).2 = false := by
  unfold Game.rotate_grid
  rw [if_pos hd]
  simp only [hrot]
  have hfold := foldl_dictSet_keyed
    (fun kv => (⟨(kv.1.x + dx) % (g.size : Int), kv.1.y⟩ : Position))
    g.grid.entities []
  have hndM : (dictKeys ([] ++ g.grid.entities.map
      (fun kv =>
        ((⟨(kv.1.x + dx) % (g.size : Int), kv.1.y⟩ : Position), kv.2)))).Nodup := by
    rw [List.nil_append]
    exact mapped_keys_nodup g.grid.entities (g.size : Int) dx hb hn
  have hfree := foldl_dictSet_fresh (g.grid.entities.map
    (fun kv =>
      ((⟨(kv.1.x + dx) % (g.size : Int), kv.1.y⟩ : Position), kv.2))) [] hndM
  constructor
  · simp only [hfold, hfree, List.nil_append]
    rfl
  · trivial

/-- Iterating a valid rotation accumulates the offset: after `n`
rotations every entry sits at `(x + n·dx) mod size`. -/
theorem rotate_iter (g : Game) (d : String) (dx : Int)
    (hd : d ∈ DIRECTIONS)
    (hrot : ROTATIONS.getD (DIRECTIONS.findIdx (fun e => e = d)) (0, 0) =
      (dx, 0))
    (hb : ∀ kv ∈ g.grid.entities, 0 ≤ kv.1.x ∧ kv.1.x < (g.size : Int))
    (hn : (dictKeys g.grid.entities).Nodup) :
    ∀ n : Nat, (fun h : Game => (h.rotate_grid d).1)^[n] g =
      { g with grid := { g.grid with entities := (g.grid.entities.map
        (fun kv =>
          (⟨(kv.1.x + (n : Int) * dx) % (g.size : Int), kv.1.y⟩, kv.2))) } } := by
  intro n
  induction n with
  | zero =>
    simp only [Function.iterate_zero, id_eq, Nat.cast_zero, zero_mul]
    have h1 : ∀ kv ∈ g.grid.entities,
        ((⟨(kv.1.x + 0) % (g.size : Int), kv.1.y⟩ : Position), kv.2) = kv := by
      intro kv hkv
      have hb1 := hb kv hkv
      rw [add_zero, Int.emod_eq_of_lt hb1.1 hb1.2]
    rw [List.map_congr_left h1]
    simp
  | succ n ih =>
    rw [Function.iterate_succ_apply', ih]
    have hbN : ∀ kv ∈ g.grid.entities.map
        (fun kv =>
          ((⟨(kv.1.x + (n : Int) * dx) % (g.size : Int), kv.1.y⟩ : Position),
            kv.2)),
        0 ≤ kv.1.x ∧ kv.1.x < (g.size : Int) := by
      intro kv hkv
      rcases List.mem_map.1 hkv with ⟨qe, hqe, rfl⟩
      have hq := hb qe hqe
      have hs : (0 : Int) < (g.size : Int) := lt_of_le_of_lt hq.1 hq.2
      exact ⟨Int.emod_nonneg _ (ne_of_gt hs), Int.emod_lt_of_pos _ hs⟩
    have hnN : (dictKeys (g.grid.entities.map
        (fun kv =>
          ((⟨(kv.1.x + (n : Int) * dx) % (g.size : Int), kv.1.y⟩ : Position),
            kv.2)))).Nodup :=
      mapped_keys_nodup g.grid.entities (g.size : Int) ((n : Int) * dx) hb hn
    have hr := rotate_grid_eq
      { g with grid := { g.grid with entities := (g.grid.entities.map
        (fun kv =>
          (⟨(kv.1.x + (n : Int) * dx) % (g.size : Int), kv.1.y⟩, kv.2))) } }
      d dx hd hrot hbN hnN
    rw [hr.1]
    simp only [List.map_map]
    congr 1
    congr 1
    apply List.map_congr_left
    intro kv _
    simp only [Function.comp_apply]
    rw [Prod.mk.injEq]
    refine ⟨positionExt _ _ ?_ rfl, rfl⟩
    show ((kv.1.x + (n : Int) * dx) % (g.size : Int) + dx) % (g.size : Int) =
      (kv.1.x + ((n + 1 : Nat) : Int) * dx) % (g.size : Int)
    rw [emodAddLeft]
    congr 1
    push_cast
    ring

/-! ## Spawn lemmas -/

theorem totalCount_le (size : Nat) (o : SpawnOracle) (hv : o.Valid size) :
    o.totalCount ≤ size := by
  have h1 := hv.1
  unfold SpawnOracle.totalCount
  by_cases hb : o.blocker <;> simp [hb] <;> omega

theorem valid_size_ge (size : Nat) (o : SpawnOracle) (hv : o.Valid size) :
    3 ≤ size := by
  have h1 := hv.1
  omega

theorem entityList_length (o : SpawnOracle)
    (hlen : o.kinds.length = o.entityCount) :
    o.entityList.length = o.totalCount := by
  unfold SpawnOracle.entityList SpawnOracle.totalCount
  by_cases hb : o.blocker <;> simp [hb, hlen]

theorem entityList_mem (o : SpawnOracle)
    (hk : ∀ k ∈ o.kinds, k ∈ ENTITY_TYPES) :
    ∀ k ∈ o.entityList,
      k = DESTROYABLE ∨ k = COLLECTABLE ∨ k = BLOCKER := by
  intro k hkk
  unfold SpawnOracle.entityList at hkk
  rcases List.mem_append.1 hkk with h | h
  · have h2 := hk k h
    simp only [ENTITY_TYPES, List.mem_cons, List.not_mem_nil, or_false] at h2
    rcases h2 with h2 | h2
    · exact Or.inl h2
    · exact Or.inr (Or.inl h2)
  · by_cases hb : o.blocker
    · simp only [hb, if_pos] at h
      simp only [List.mem_singleton] at h
      exact Or.inr (Or.inr h)
    · simp [hb] at h

/-- The placement loop, under the conditions `random.sample` and the
spawn alphabet guarantee, appends exactly one fresh top-row entry per
pair and raises nothing. -/
theorem spawnLoop_append (pairs : List (Int × String)) :
    ∀ g : Game, 2 ≤ g.grid.size →
      (∀ xk ∈ pairs, 0 ≤ xk.1 ∧ xk.1 < (g.grid.size : Int)) →
      (∀ xk ∈ pairs,
        xk.2 = DESTROYABLE ∨ xk.2 = COLLECTABLE ∨ xk.2 = BLOCKER) →
      (∀ xk ∈ pairs, (⟨xk.1, (g.grid.size : Int) - 1⟩ : Position) ∉
        dictKeys g.grid.entities) →
      (pairs.map Prod.fst).Nodup →
      spawnLoop g pairs =
        ({ g with grid := { g.grid with entities := (g.grid.entities ++
            pairs.map (fun xk =>
              (⟨xk.1, (g.grid.size : Int) - 1⟩, entityOfDisplay xk.2))) } },
          false) := by
  induction pairs with
  | nil =>
    intro g _ _ _ _ _
    simp [spawnLoop]
  | cons xk rest ih =>
    intro g hs hx hk hfresh hnd
    obtain ⟨pos, kind⟩ := xk
    have hcreate : create_entity kind = .ok (entityOfDisplay kind) := by
      rcases hk (pos, kind) (by simp) with h | h | h <;>
        · subst h
          rfl
    simp only [spawnLoop, hcreate]
    have hb1 := hx (pos, kind) (by simp)
    have hin : g.grid.in_bounds ⟨pos, (g.grid.size : Int) - 1⟩ = true := by
      unfold Grid.in_bounds
      simp only [Bool.and_eq_true, decide_eq_true_eq]
      refine ⟨⟨⟨hb1.1, hb1.2⟩, ?_⟩, ?_⟩ <;> omega
    unfold Grid.add_entity
    rw [if_pos hin]
    have hfreshkey : ∀ qe ∈ g.grid.entities,
        qe.1 ≠ (⟨pos, (g.grid.size : Int) - 1⟩ : Position) := by
      intro qe hqe heq
      exact hfresh (pos, kind) (by simp) (heq ▸ List.mem_map_of_mem _ hqe)
    rw [dictSet_fresh _ _ _ hfreshkey]
    have hxpos : pos ∉ rest.map Prod.fst := (List.nodup_cons.1 hnd).1
    rw [ih { g with grid := { g.grid with entities := (g.grid.entities ++
        [(⟨pos, (g.grid.size : Int) - 1⟩, entityOfDisplay kind)]) } }
      hs
      (fun xk hxk => hx xk (by simp [hxk]))
      (fun xk hxk => hk xk (by simp [hxk]))
      ?_ (List.nodup_cons.1 hnd).2]
    · simp
    · intro xk hxk hmem
      rw [dictKeys_append] at hmem
      rcases List.mem_append.1 hmem with h | h
      · exact hfresh xk (by simp [hxk]) h
      · simp only [dictKeys, List.map_cons, List.map_nil,
          List.mem_singleton, Position.mk.injEq] at h
        exact hxpos (h.1 ▸ List.mem_map_of_mem Prod.fst hxk)

/-- What one `generate_entities` call does to the entity dict, for any
randomness the `random` module can actually return: it appends
`spawnPairs` (nothing when it raises on a degenerate range). -/
theorem generate_entities_entries (g : Game) (o : SpawnOracle)
    (hv : o.Valid g.grid.size)
    (hfresh : ∀ x ∈ o.positions, (⟨x, (g.grid.size : Int) - 1⟩ : Position) ∉
      dictKeys g.grid.entities) :
    (g.generate_entities o).1 =
      { g with grid := { g.grid with entities :=
        (g.grid.entities ++ spawnPairs g.grid.size o) } } ∧
    (g.generate_entities o).2 = false := by
  have h3 : 3 ≤ g.grid.size := valid_size_ge _ _ hv
  have hns : ¬ ((g.grid.size : Int) - 3 < 0) := by omega
  have hsample : ¬ ((g.grid.size : Nat) < o.totalCount) :=
    not_lt.2 (totalCount_le _ _ hv)
  have hlen : o.positions.length ≤ o.entityList.length := by
    rw [hv.2.2.2.2.2.1, entityList_length o hv.2.1]
  have hfst : (o.positions.zip o.entityList).map Prod.fst = o.positions :=
    List.map_fst_zip _ _ hlen
  unfold Game.generate_entities
  rw [if_neg hns, if_neg hsample]
  rw [spawnLoop_append (o.positions.zip o.entityList) g (by omega)
    (fun xk hxk => hv.2.2.2.2.2.2.2 xk.1 (List.of_mem_zip hxk).1)
    (fun xk hxk => entityList_mem o hv.2.2.1 xk.2 (List.of_mem_zip hxk).2)
    (fun xk hxk => hfresh xk.1 (List.of_mem_zip hxk).1)
    (by rw [hfst]; exact hv.2.2.2.2.2.2.1)]
  unfold spawnPairs
  rw [if_neg hns, if_neg hsample]
  exact ⟨rfl, rfl⟩

/-- The entity dict after one `step`: the gravity pass result followed
by the tick's spawned entries, each appended into a previously empty
cell. -/
theorem step_entries (g : Game) (o : SpawnOracle) (hwf : GameWF g)
    (hv : o.Valid g.grid.size) :
    (g.step o).1.grid.entities =
      (gravityLoop [] g.grid.entities).1 ++ spawnPairs g.grid.size o := by
  unfold Game.step
  have hfresh : ∀ x ∈ o.positions,
      (⟨x, (g.grid.size : Int) - 1⟩ : Position) ∉
        dictKeys (gravityLoop [] g.grid.entities).1 := by
    intro x _ hmem
    rcases List.mem_map.1 hmem with ⟨kv, hkv, hkey⟩
    rcases mem_gravityLoop g.grid.entities [] kv hkv with h | ⟨qe, hqe, _, rfl⟩
    · simp at h
    · have hyb := (hwf.2.1 qe hqe).2.2.2
      have hy2 : qe.1.y + MOVE.2 = (g.grid.size : Int) - 1 := by
        have h0 := congrArg Position.y hkey
        simpa [gravShift] using h0
      simp only [MOVE] at hy2
      omega
  have h := generate_entities_entries
    { g with
      game_over := g.game_over || (gravityLoop [] g.grid.entities).2
      grid := g.grid.renew_entities (gravityLoop [] g.grid.entities).1 }
    o hv hfresh
  rw [h.1]
  rfl

/-! ## Well-formedness is preserved by every operation -/

theorem wf_init (n : Nat) : GameWF (Game.init n) := by
  refine ⟨rfl, ?_, ?_⟩ <;> simp [Game.init, dictKeys]

theorem spawnLoop_wf (pairs : List (Int × String)) :
    ∀ g : Game, GameWF g → GameWF (spawnLoop g pairs).1 := by
  induction pairs with
  | nil =>
    intro g h
    exact h
  | cons xk rest ih =>
    intro g h
    obtain ⟨pos, kind⟩ := xk
    simp only [spawnLoop]
    cases hc : create_entity kind with
    | error e => exact h
    | ok e =>
      apply ih
      unfold Grid.add_entity
      by_cases hin : g.grid.in_bounds ⟨pos, (g.grid.size : Int) - 1⟩ = true
      · rw [if_pos hin]
        refine ⟨h.1, ?_, dictKeys_dictSet_nodup _ _ _ h.2.2⟩
        intro kv hkv
        rcases mem_dictSet _ _ _ _ hkv with h1 | h1
        · exact h.2.1 kv h1
        · subst h1
          unfold Grid.in_bounds at hin
          simp only [Bool.and_eq_true, decide_eq_true_eq] at hin
          exact ⟨hin.1.1.1, hin.1.1.2, hin.1.2, hin.2⟩
      · rw [if_neg hin]
        exact h

theorem generate_wf (g : Game) (o : SpawnOracle) (h : GameWF g) :
    GameWF (g.generate_entities o).1 := by
  unfold Game.generate_entities
  by_cases h1 : (g.grid.size : Int) - 3 < 0
  · rw [if_pos h1]
    exact h
  · rw [if_neg h1]
    by_cases h2 : (g.grid.size : Nat) < o.totalCount
    · rw [if_pos h2]
      exact h
    · rw [if_neg h2]
      exact spawnLoop_wf _ g h

theorem step_wf (g : Game) (o : SpawnOracle) (h : GameWF g) :
    GameWF (g.step o).1 := by
  unfold Game.step
  apply generate_wf
  refine ⟨h.1, ?_, ?_⟩
  · intro kv hkv
    rcases mem_gravityLoop g.grid.entities [] kv hkv with h1 | ⟨qe, hqe, hy, rfl⟩
    · simp at h1
    · have hb := h.2.1 qe hqe
      have h4 := hb.2.2.2
      simp only [MOVE] at hy
      simp only [gravShift, MOVE, Grid.renew_entities]
      refine ⟨hb.1, hb.2.1, by omega, by omega⟩
  · exact gravityLoop_nodup _ [] (by simp [dictKeys])

theorem fire_wf (g : Game) (s : String) (h : GameWF g) : GameWF (g.fire s) := by
  obtain ⟨h1, h2, h3, h4, h5, h6, h7⟩ := fire_fields g s
  refine ⟨by rw [h5, h1]; exact h.1, ?_, ?_⟩
  · intro kv hkv
    have hm := h.2.1 kv (h6.subset hkv)
    rw [h5]
    exact hm
  · exact h.2.2.sublist (h6.map Prod.fst)

theorem rotate_wf (g : Game) (d : String) (h : GameWF g) :
    GameWF (g.rotate_grid d).1 := by
  unfold Game.rotate_grid
  by_cases hd : d ∈ DIRECTIONS
  · rw [if_pos hd]
    refine ⟨h.1, ?_, ?_⟩
    · intro kv hkv
      rcases foldl_dictSet_mem _ g.grid.entities [] kv hkv with h1 | ⟨qe, hqe, rfl⟩
      · simp at h1
      · have hb := h.2.1 qe hqe
        have hgg : g.grid.size = g.size := h.1
        have hs : (0 : Int) < (g.size : Int) := by
          have h9 := lt_of_le_of_lt hb.1 hb.2.1
          rw [hgg] at h9
          exact h9
        have hlt := Int.emod_lt_of_pos
          (qe.1.x + (ROTATIONS.getD (DIRECTIONS.findIdx
            (fun e => e = d)) (0, 0)).1) hs
        refine ⟨Int.emod_nonneg _ (ne_of_gt hs), ?_, hb.2.2.1, ?_⟩
        · simp only [Grid.renew_entities]
          rw [hgg]
          exact hlt
        · simp only [Grid.renew_entities]
          exact hb.2.2.2
    · exact foldl_dictSet_nodup _ g.grid.entities [] (by simp [dictKeys])
  · rw [if_neg hd]
    exact h

theorem applyOp_wf (g : Game) (op : Op) (h : GameWF g) :
    GameWF (applyOp g op) := by
  cases op with
  | rotate d => exact rotate_wf g d h
  | step o => exact step_wf g o h
  | fire s => exact fire_wf g s h

theorem runOps_wf (ops : List Op) :
    ∀ g, GameWF g → GameWF (runOps g ops) := by
  induction ops with
  | nil =>
    intro g h
    exact h
  | cons op rest ih =>
    intro g h
    exact ih _ (applyOp_wf g op h)

/-! ## Counter lemmas -/

theorem applyOp_counters (g : Game) (op : Op) :
    g.num_collected ≤ (applyOp g op).num_collected ∧
    g.num_destroyed ≤ (applyOp g op).num_destroyed ∧
    g.total_shots ≤ (applyOp g op).total_shots ∧
    (CounterInv g → CounterInv (applyOp g op)) := by
  cases op with
  | rotate d =>
    obtain ⟨-, -, -, h4, h5, h6, -⟩ := rotate_fields g d
    simp only [applyOp]
    unfold CounterInv
    rw [h4, h5, h6]
    exact ⟨le_refl _, le_refl _, le_refl _, id⟩
  | step o =>
    obtain ⟨-, -, -, h4, h5, h6, -⟩ := step_fields g o
    simp only [applyOp]
    unfold CounterInv
    rw [h4, h5, h6]
    exact ⟨le_refl _, le_refl _, le_refl _, id⟩
  | fire s =>
    obtain ⟨-, -, -, h4, -, -, hcd⟩ := fire_fields g s
    simp only [applyOp]
    unfold CounterInv
    rcases hcd with ⟨hc, hd⟩ | ⟨hc, hd⟩ | ⟨hc, hd⟩ <;>
      rw [hc, hd, h4] <;>
      exact ⟨by omega, by omega, by omega, fun hci => by omega⟩

theorem counterInv_init (n : Nat) : CounterInv (Game.init n) := by
  unfold CounterInv Game.init
  norm_num

theorem runOps_counterInv (ops : List Op) :
    ∀ g, CounterInv g → CounterInv (runOps g ops) := by
  induction ops with
  | nil =>
    intro g h
    exact h
  | cons op rest ih =>
    intro g h
    exact ih _ ((applyOp_counters g op).2.2.2 h)

/-! ## Column-scan and spawn helper lemmas -/

theorem fireLoop_cons_collectable (g : Game) (shot : String) (x y : Int)
    (rest : List Int)
    (hget : g.grid.get_entity ⟨x, y⟩ = some Entity.collectable)
    (hs : ¬ shot = COLLECT) :
    fireLoop g shot x (y :: rest) = g := by
  simp only [fireLoop, hget]
  rw [if_neg hs]

theorem fireLoop_cons_destroyable (g : Game) (shot : String) (x y : Int)
    (rest : List Int)
    (hget : g.grid.get_entity ⟨x, y⟩ = some Entity.destroyable)
    (hs : ¬ shot = DESTROY) :
    fireLoop g shot x (y :: rest) = g := by
  simp only [fireLoop, hget]
  rw [if_neg hs]

theorem scanRange_split (size y0 : Nat) (h1 : 1 ≤ y0) (h2 : y0 < size) :
    scanRange size =
      ((List.range' 1 (y0 - 1)).map Int.ofNat) ++
        (Int.ofNat y0 ::
          ((List.range' (y0 + 1) (size - 1 - y0)).map Int.ofNat)) := by
  unfold scanRange
  have e0 : size - 1 = (size - y0) + (y0 - 1) := by omega
  have e2 : 1 + (y0 - 1) = y0 := by omega
  have e3 : size - y0 = (size - 1 - y0) + 1 := by omega
  rw [e0, ← List.range'_append_1 1 (y0 - 1) (size - y0), e2, e3,
    List.range'_succ, List.map_append, List.map_cons]
  have e4 : size - 1 - y0 + 1 + (y0 - 1) - y0 = size - 1 - y0 := by omega
  rw [e4]

/-- `fire` runs the whole scan below the first occupied cell without
effect: with every cell below `y0` empty, the scan reduces to the scan
from `y0` on. -/
theorem fire_first_occupied (g : Game) (shot_type : String) (y0 : Nat)
    (h1 : 1 ≤ y0) (h2 : y0 < g.size)
    (hempty : ∀ y : Nat, 1 ≤ y → y < y0 →
      g.grid.get_entity ⟨g.player_position.x, (y : Int)⟩ = none) :
    g.fire shot_type =
      fireLoop { g with total_shots := g.total_shots + 1 } shot_type
        g.player_position.x (Int.ofNat y0 ::
          ((List.range' (y0 + 1) (g.size - 1 - y0)).map Int.ofNat)) := by
  unfold Game.fire
  rw [scanRange_split g.size y0 h1 h2]
  apply fireLoop_skip
  intro y hy
  rcases List.mem_map.1 hy with ⟨m, hm, rfl⟩
  rcases List.mem_range'.1 hm with ⟨i, hi, rfl⟩
  exact hempty (1 + 1 * i) (by omega) (by omega)

theorem generate_entities_small (g : Game) (o : SpawnOracle)
    (h : g.grid.size < 3) :
    g.generate_entities o = (g, true) := by
  unfold Game.generate_entities
  rw [if_pos (by omega : ((g.grid.size : Int) - 3 < 0))]

theorem spawnPairs_mem_y (size : Nat) (o : SpawnOracle) :
    ∀ pe ∈ spawnPairs size o, pe.1.y = (size : Int) - 1 := by
  intro pe hpe
  unfold spawnPairs at hpe
  by_cases hc1 : ((size : Int) - 3 < 0)
  · simp [hc1] at hpe
  · rw [if_neg hc1] at hpe
    by_cases hc2 : (size < o.totalCount)
    · simp [hc2] at hpe
    · rw [if_neg hc2] at hpe
      rcases List.mem_map.1 hpe with ⟨xk, _, rfl⟩
      rfl

theorem spawnPairs_keys_nodup (size : Nat) (o : SpawnOracle)
    (hv : o.Valid size) :
    (dictKeys (spawnPairs size o)).Nodup := by
  unfold spawnPairs
  by_cases hc1 : ((size : Int) - 3 < 0)
  · simp [hc1, dictKeys]
  · rw [if_neg hc1]
    by_cases hc2 : (size < o.totalCount)
    · simp [hc2, dictKeys]
    · rw [if_neg hc2]
      have hlen : o.positions.length ≤ o.entityList.length := by
        rw [hv.2.2.2.2.2.1, entityList_length o hv.2.1]
      have hfst : (o.positions.zip o.entityList).map Prod.fst =
          o.positions := List.map_fst_zip _ _ hlen
      have hfstnd : ((o.positions.zip o.entityList).map Prod.fst).Nodup := by
        rw [hfst]
        exact hv.2.2.2.2.2.2.1
      have hzipnd : (o.positions.zip o.entityList).Nodup := hfstnd.of_map
      have hinj := List.inj_on_of_nodup_map hfstnd
      unfold dictKeys
      rw [List.map_map]
      refine List.Nodup.map_on ?_ hzipnd
      intro a ha b hb heq
      simp only [Function.comp_apply, Position.mk.injEq] at heq
      exact hinj ha hb heq.1

/-! ## The claims -/

/-- Claim C1: whenever the gravity pass of `step()` sets `game_over`,
the spawn phase still runs in that same tick — the `break` only exits
the gravity loop — so the new entities are generated and added to the
top row even on the losing tick. -/
theorem c1_spawn_runs_on_losing_tick (g : Game) (o : SpawnOracle)
    (hwf : GameWF g) (hv : o.Valid g.grid.size)
    (hlost : (gravityLoop [] g.grid.entities).2 = true) :
    (g.step o).1.game_over = true ∧
    (g.step o).1.grid.entities =
      (gravityLoop [] g.grid.entities).1 ++ spawnPairs g.grid.size o ∧
    ∀ pe ∈ spawnPairs g.grid.size o,
      pe ∈ (g.step o).1.grid.entities ∧
        pe.1.y = (g.grid.size : Int) - 1 := by
  have hent := step_entries g o hwf hv
  have hfields := step_fields g o
  refine ⟨?_, hent, ?_⟩
  · rw [hfields.2.1, hlost, Bool.or_true]
  · intro pe hpe
    refine ⟨?_, spawnPairs_mem_y g.grid.size o pe hpe⟩
    rw [hent]
    exact List.mem_append_right _ hpe

theorem c1_spawn_runs_on_losing_tick_witness :
    (({ Game.init 3 with grid :=
        { size := 3, entities := [(⟨1, 1⟩, Entity.destroyable)] } } : Game).step
          ⟨0, [], 4, [2]⟩).1.game_over = true ∧
    (({ Game.init 3 with grid :=
        { size := 3, entities := [(⟨1, 1⟩, Entity.destroyable)] } } : Game).step
          ⟨0, [], 4, [2]⟩).1.grid.entities =
      (gravityLoop [] ({ Game.init 3 with grid :=
        { size := 3, entities := [(⟨1, 1⟩, Entity.destroyable)] } } :
          Game).grid.entities).1 ++
        spawnPairs ({ Game.init 3 with grid :=
          { size := 3, entities := [(⟨1, 1⟩, Entity.destroyable)] } } :
            Game).grid.size ⟨0, [], 4, [2]⟩ ∧
    ∀ pe ∈ spawnPairs ({ Game.init 3 with grid :=
        { size := 3, entities := [(⟨1, 1⟩, Entity.destroyable)] } } :
          Game).grid.size ⟨0, [], 4, [2]⟩,
      pe ∈ (({ Game.init 3 with grid :=
        { size := 3, entities := [(⟨1, 1⟩, Entity.destroyable)] } } : Game).step
          ⟨0, [], 4, [2]⟩).1.grid.entities ∧
        pe.1.y = (({ Game.init 3 with grid :=
          { size := 3, entities := [(⟨1, 1⟩, Entity.destroyable)] } } :
            Game).grid.size : Int) - 1 :=
  c1_spawn_runs_on_losing_tick
    { Game.init 3 with grid :=
      { size := 3, entities := [(⟨1, 1⟩, Entity.destroyable)] } }
    ⟨0, [], 4, [2]⟩ (by decide) (by decide) (by decide)

/-- Claim C2 (the code diverges at `'P'`): `_create_entity` maps `'D'`,
`'C'`, `'B'` to the matching variants, but its first branch compares
the display character with the class object `Player` (always false for
a string), so `'P'` — a valid display character per the claim — raises
`NotImplementedError` exactly like any unknown character. -/
theorem c2_create_entity_eval :
    create_entity DESTROYABLE = Except.ok Entity.destroyable ∧
    create_entity COLLECTABLE = Except.ok Entity.collectable ∧
    create_entity BLOCKER = Except.ok Entity.blocker ∧
    create_entity PLAYER = Except.error () ∧
    create_entity "X" = Except.error () ∧
    create_entity "" = Except.error () :=
  ⟨rfl, rfl, rfl, rfl, rfl, rfl⟩

/-- Claim C3, counterexample: on a grid of size 2 the spawn phase does
not complete without error — `random.randint(0, -1)` has an empty
range and raises `ValueError`, so `step` reports an exception. -/
theorem c3_counterexample :
    ((Game.init 2).step ⟨0, [], 1, []⟩).2 = true := rfl

/-- Claim C3, amended: for every grid size `< 3` the spawn phase
raises (`randint` on the empty range `[0, size-3]`) before placing
anything, so zero entities are spawned but the call errors rather than
completing normally. -/
theorem c3_amended_spawn_raises (g : Game) (o : SpawnOracle)
    (h : g.grid.size < 3) :
    (g.step o).2 = true ∧
    (g.step o).1.grid.entities = (gravityLoop [] g.grid.entities).1 := by
  have hgen := generate_entities_small
    { g with
      game_over := g.game_over || (gravityLoop [] g.grid.entities).2
      grid := g.grid.renew_entities (gravityLoop [] g.grid.entities).1 } o h
  constructor
  · show (Game.generate_entities
      { g with
        game_over := g.game_over || (gravityLoop [] g.grid.entities).2
        grid := g.grid.renew_entities (gravityLoop [] g.grid.entities).1 }
      o).2 = true
    rw [hgen]
  · show (Game.generate_entities
      { g with
        game_over := g.game_over || (gravityLoop [] g.grid.entities).2
        grid := g.grid.renew_entities (gravityLoop [] g.grid.entities).1 }
      o).1.grid.entities = (gravityLoop [] g.grid.entities).1
    rw [hgen]
    rfl

theorem c3_amended_spawn_raises_witness :
    ((Game.init 2).step ⟨0, [], 1, []⟩).2 = true ∧
    ((Game.init 2).step ⟨0, [], 1, []⟩).1.grid.entities =
      (gravityLoop [] (Game.init 2).grid.entities).1 :=
  c3_amended_spawn_raises (Game.init 2) ⟨0, [], 1, []⟩ (by decide)

/-- Claim C4: when the first entity whose new y would drop below 1 is
a Destroyable, the gravity pass sets the loss flag and stops at once:
the result keeps exactly the already-moved prefix (entities after the
break are dropped, not carried forward), `step` preserves all three
counters (no score effect), and a non-Destroyable falling entity is
simply skipped by the loop. -/
theorem c4_break_on_first_loss (g : Game) (o : SpawnOracle)
    (pre post : List (Position × Entity)) (p0 : Position)
    (hsplit : g.grid.entities = pre ++ (p0, Entity.destroyable) :: post)
    (hpre : ∀ kv ∈ pre, 1 ≤ kv.1.y + MOVE.2)
    (hfall : p0.y + MOVE.2 < 1)
    (hn : (dictKeys g.grid.entities).Nodup) :
    gravityLoop [] g.grid.entities = (pre.map gravShift, true) ∧
    (g.step o).1.game_over = true ∧
    (g.step o).1.num_collected = g.num_collected ∧
    (g.step o).1.num_destroyed = g.num_destroyed ∧
    (g.step o).1.total_shots = g.total_shots ∧
    (∀ (p : Position) (e : Entity) (acc rest : List (Position × Entity)),
      e ≠ Entity.destroyable → p.y + MOVE.2 < 1 →
      gravityLoop acc ((p, e) :: rest) = gravityLoop acc rest) := by
  have hinj : Function.Injective
      (fun p : Position => (⟨p.x, p.y + MOVE.2⟩ : Position)) := by
    intro p q h
    simp only [Position.mk.injEq] at h
    exact positionExt p q h.1 (by omega)
  have hgrav : gravityLoop [] g.grid.entities = (pre.map gravShift, true) := by
    rw [hsplit]
    apply gravityLoop_break p0 hfall post pre [] hpre
    rw [List.nil_append]
    have hkeys : dictKeys (pre.map gravShift) =
        (dictKeys pre).map (fun p => (⟨p.x, p.y + MOVE.2⟩ : Position)) := by
      unfold dictKeys gravShift
      rw [List.map_map, List.map_map]
      rfl
    rw [hkeys]
    have hpre_nd : (dictKeys pre).Nodup := by
      rw [hsplit, dictKeys_append] at hn
      exact (List.nodup_append.1 hn).1
    exact hpre_nd.map hinj
  have hfields := step_fields g o
  refine ⟨hgrav, ?_, hfields.2.2.2.1, hfields.2.2.2.2.1, hfields.2.2.2.2.2.1,
    ?_⟩
  · rw [hfields.2.1, hgrav]
    simp
  · intro p e acc rest he hp
    simp only [gravityLoop]
    rw [if_neg (not_le.2 hp), if_neg he]

theorem c4_break_on_first_loss_witness :
    gravityLoop [] ({ Game.init 4 with grid := { size := 4, entities :=
      [(⟨0, 2⟩, Entity.collectable), (⟨1, 1⟩, Entity.destroyable),
        (⟨2, 3⟩, Entity.blocker)] } } : Game).grid.entities =
      ([(⟨0, 2⟩, Entity.collectable)].map gravShift, true) ∧
    (({ Game.init 4 with grid := { size := 4, entities :=
      [(⟨0, 2⟩, Entity.collectable), (⟨1, 1⟩, Entity.destroyable),
        (⟨2, 3⟩, Entity.blocker)] } } : Game).step
          ⟨0, [], 1, []⟩).1.game_over = true ∧
    (({ Game.init 4 with grid := { size := 4, entities :=
      [(⟨0, 2⟩, Entity.collectable), (⟨1, 1⟩, Entity.destroyable),
        (⟨2, 3⟩, Entity.blocker)] } } : Game).step
          ⟨0, [], 1, []⟩).1.num_collected =
      ({ Game.init 4 with grid := { size := 4, entities :=
        [(⟨0, 2⟩, Entity.collectable), (⟨1, 1⟩, Entity.destroyable),
          (⟨2, 3⟩, Entity.blocker)] } } : Game).num_collected ∧
    (({ Game.init 4 with grid := { size := 4, entities :=
      [(⟨0, 2⟩, Entity.collectable), (⟨1, 1⟩, Entity.destroyable),
        (⟨2, 3⟩, Entity.blocker)] } } : Game).step
          ⟨0, [], 1, []⟩).1.num_destroyed =
      ({ Game.init 4 with grid := { size := 4, entities :=
        [(⟨0, 2⟩, Entity.collectable), (⟨1, 1⟩, Entity.destroyable),
          (⟨2, 3⟩, Entity.blocker)] } } : Game).num_destroyed ∧
    (({ Game.init 4 with grid := { size := 4, entities :=
      [(⟨0, 2⟩, Entity.collectable), (⟨1, 1⟩, Entity.destroyable),
        (⟨2, 3⟩, Entity.blocker)] } } : Game).step
          ⟨0, [], 1, []⟩).1.total_shots =
      ({ Game.init 4 with grid := { size := 4, entities :=
        [(⟨0, 2⟩, Entity.collectable), (⟨1, 1⟩, Entity.destroyable),
          (⟨2, 3⟩, Entity.blocker)] } } : Game).total_shots ∧
    (∀ (p : Position) (e : Entity) (acc rest : List (Position × Entity)),
      e ≠ Entity.destroyable → p.y + MOVE.2 < 1 →
      gravityLoop acc ((p, e) :: rest) = gravityLoop acc rest) :=
  c4_break_on_first_loss
    { Game.init 4 with grid := { size := 4, entities :=
      [(⟨0, 2⟩, Entity.collectable), (⟨1, 1⟩, Entity.destroyable),
        (⟨2, 3⟩, Entity.blocker)] } }
    ⟨0, [], 1, []⟩
    [(⟨0, 2⟩, Entity.collectable)] [(⟨2, 3⟩, Entity.blocker)] ⟨1, 1⟩
    (by decide) (by decide) (by decide) (by decide)

/-- Claim C5: in every state reachable from a fresh game by rotate,
step and fire calls, the three counters are non-negative, none of them
decreases across a further operation, and `total_shots` dominates
`num_collected + num_destroyed`. -/
theorem c5_counters_monotone (n : Nat) (ops : List Op) (op : Op) :
    (0 ≤ (runOps (Game.init n) ops).num_collected ∧
      0 ≤ (runOps (Game.init n) ops).num_destroyed ∧
      0 ≤ (runOps (Game.init n) ops).total_shots) ∧
    ((runOps (Game.init n) ops).num_collected ≤
        (applyOp (runOps (Game.init n) ops) op).num_collected ∧
      (runOps (Game.init n) ops).num_destroyed ≤
        (applyOp (runOps (Game.init n) ops) op).num_destroyed ∧
      (runOps (Game.init n) ops).total_shots ≤
        (applyOp (runOps (Game.init n) ops) op).total_shots) ∧
    (runOps (Game.init n) ops).num_collected +
        (runOps (Game.init n) ops).num_destroyed ≤
      (runOps (Game.init n) ops).total_shots := by
  have hinv := runOps_counterInv ops (Game.init n) (counterInv_init n)
  have hmono := applyOp_counters (runOps (Game.init n) ops) op
  exact ⟨⟨hinv.1, hinv.2.1, hinv.2.2.1⟩,
    ⟨hmono.1, hmono.2.1, hmono.2.2.1⟩, hinv.2.2.2⟩

/-- Claim C6: a valid rotation shifts every entry's x by the
direction's offset (plus or minus 1) modulo the size, leaving y and the
entity unchanged and raising nothing; applying the same direction
`size` times returns the game — in particular its entity-position
mapping — to the original. -/
theorem c6_rotation_shift_closure (g : Game) (d : String)
    (hd : d ∈ DIRECTIONS)
    (hb : ∀ kv ∈ g.grid.entities, 0 ≤ kv.1.x ∧ kv.1.x < (g.size : Int))
    (hn : (dictKeys g.grid.entities).Nodup) :
    (∃ dx : Int, (dx = 1 ∨ dx = -1) ∧
      (g.rotate_grid d).1.grid.entities = (g.grid.entities.map
        (fun kv => (⟨(kv.1.x + dx) % (g.size : Int), kv.1.y⟩, kv.2))) ∧
      (g.rotate_grid d).2 = false) ∧
    (fun h : Game => (h.rotate_grid d).1)^[g.size] g = g := by
  obtain ⟨dx, hdx, hrot⟩ := rotate_delta d hd
  constructor
  · refine ⟨dx, hdx, ?_, (rotate_grid_eq g d dx hd hrot hb hn).2⟩
    rw [(rotate_grid_eq g d dx hd hrot hb hn).1]
  · rw [rotate_iter g d dx hd hrot hb hn g.size]
    have h1 : ∀ kv ∈ g.grid.entities,
        ((⟨(kv.1.x + (g.size : Int) * dx) % (g.size : Int), kv.1.y⟩ :
          Position), kv.2) = id kv := by
      intro kv hkv
      have hb1 := hb kv hkv
      show ((⟨(kv.1.x + (g.size : Int) * dx) % (g.size : Int), kv.1.y⟩ :
        Position), kv.2) = kv
      rw [Int.add_mul_emod_self_left, Int.emod_eq_of_lt hb1.1 hb1.2]
    rw [List.map_congr_left h1, List.map_id]

theorem c6_rotation_shift_closure_witness :
    (∃ dx : Int, (dx = 1 ∨ dx = -1) ∧
      (({ Game.init 3 with grid := { size := 3, entities :=
        [(⟨0, 1⟩, Entity.collectable), (⟨2, 2⟩, Entity.destroyable)] } } :
          Game).rotate_grid "A").1.grid.entities =
        (({ Game.init 3 with grid := { size := 3, entities :=
          [(⟨0, 1⟩, Entity.collectable), (⟨2, 2⟩, Entity.destroyable)] } } :
            Game).grid.entities.map
          (fun kv => (⟨(kv.1.x + dx) %
            (({ Game.init 3 with grid := { size := 3, entities :=
              [(⟨0, 1⟩, Entity.collectable),
                (⟨2, 2⟩, Entity.destroyable)] } } : Game).size : Int),
            kv.1.y⟩, kv.2))) ∧
      (({ Game.init 3 with grid := { size := 3, entities :=
        [(⟨0, 1⟩, Entity.collectable), (⟨2, 2⟩, Entity.destroyable)] } } :
          Game).rotate_grid "A").2 = false) ∧
    (fun h : Game => (h.rotate_grid "A").1)^[({ Game.init 3 with grid :=
      { size := 3, entities := [(⟨0, 1⟩, Entity.collectable),
        (⟨2, 2⟩, Entity.destroyable)] } } : Game).size]
      { Game.init 3 with grid := { size := 3, entities :=
        [(⟨0, 1⟩, Entity.collectable), (⟨2, 2⟩, Entity.destroyable)] } } =
      { Game.init 3 with grid := { size := 3, entities :=
        [(⟨0, 1⟩, Entity.collectable), (⟨2, 2⟩, Entity.destroyable)] } } :=
  c6_rotation_shift_closure
    { Game.init 3 with grid := { size := 3, entities :=
      [(⟨0, 1⟩, Entity.collectable), (⟨2, 2⟩, Entity.destroyable)] } }
    "A" (by decide) (by decide) (by decide)

/-- Claim C7: every `fire` call, for any shot type and any column
contents, increments `total_shots` by exactly one; the scan never
touches it again. -/
theorem c7_fire_total_shots (g : Game) (shot_type : String) :
    (g.fire shot_type).total_shots = g.total_shots + 1 :=
  (fire_fields g shot_type).2.2.2.1

/-- Claim C8: when the lowest occupied cell of the player's column
holds a Collectable, `fire(DESTROY)` changes nothing but the shot
counter (the whole game state, grid included, is otherwise the same);
symmetrically, a wrong-typed shot against a Destroyable stops the scan
with no effect. -/
theorem c8_wrong_type_shot_no_effect (g : Game) (y0 : Nat)
    (h1 : 1 ≤ y0) (h2 : y0 < g.size)
    (hempty : ∀ y : Nat, 1 ≤ y → y < y0 →
      g.grid.get_entity ⟨g.player_position.x, (y : Int)⟩ = none) :
    (g.grid.get_entity ⟨g.player_position.x, (y0 : Int)⟩ =
        some Entity.collectable →
      g.fire DESTROY = { g with total_shots := g.total_shots + 1 }) ∧
    (g.grid.get_entity ⟨g.player_position.x, (y0 : Int)⟩ =
        some Entity.destroyable →
      ∀ s, s ≠ DESTROY →
        g.fire s = { g with total_shots := g.total_shots + 1 }) := by
  constructor
  · intro hcol
    rw [fire_first_occupied g DESTROY y0 h1 h2 hempty]
    exact fireLoop_cons_collectable _ _ _ _ _ hcol (by decide)
  · intro hdes s hs
    rw [fire_first_occupied g s y0 h1 h2 hempty]
    exact fireLoop_cons_destroyable _ _ _ _ _ hdes hs

theorem c8_wrong_type_shot_no_effect_witness :
    ({ Game.init 3 with grid := { size := 3, entities :=
      [(⟨1, 2⟩, Entity.collectable)] } } : Game).fire DESTROY =
      { ({ Game.init 3 with grid := { size := 3, entities :=
        [(⟨1, 2⟩, Entity.collectable)] } } : Game) with
        total_shots := ({ Game.init 3 with grid := { size := 3, entities :=
          [(⟨1, 2⟩, Entity.collectable)] } } : Game).total_shots + 1 } :=
  (c8_wrong_type_shot_no_effect
    { Game.init 3 with grid := { size := 3, entities :=
      [(⟨1, 2⟩, Entity.collectable)] } }
    2 (by decide) (by decide)
    (by
      intro y hy1 hy2
      have hy : y = 1 := by omega
      subst hy
      decide)).1 (by decide)

/-- Claim C9: `rotate_grid` on any direction outside the fixed set
raises (`DIRECTIONS.index` throws `ValueError`) before a single entity
is re-homed, so the whole game state — grid mapping and counters — is
unchanged by the failed call. -/
theorem c9_invalid_direction_atomic (g : Game) (d : String)
    (hd : d ∉ DIRECTIONS) :
    g.rotate_grid d = (g, true) := by
  unfold Game.rotate_grid
  rw [if_neg hd]

theorem c9_invalid_direction_atomic_witness :
    (Game.init 4).rotate_grid "Q" = (Game.init 4, true) :=
  c9_invalid_direction_atomic (Game.init 4) "Q" (by decide)

/-- Claim C10: from any reachable state, `step` never overwrites an
existing entity while spawning: the post-step dict is exactly the
gravity output followed by the spawned entries (each insertion hit an
empty cell and appended), no gravity survivor sits on the top row, the
sampled spawn columns are pairwise distinct, and the resulting key set
is duplicate-free. -/
theorem c10_step_no_overwrite (n : Nat) (ops : List Op) (o : SpawnOracle)
    (hv : o.Valid (runOps (Game.init n) ops).grid.size) :
    ((runOps (Game.init n) ops).step o).1.grid.entities =
      (gravityLoop [] (runOps (Game.init n) ops).grid.entities).1 ++
        spawnPairs (runOps (Game.init n) ops).grid.size o ∧
    (∀ pe ∈ (gravityLoop [] (runOps (Game.init n) ops).grid.entities).1,
      pe.1.y ≠ ((runOps (Game.init n) ops).grid.size : Int) - 1) ∧
    o.positions.Nodup ∧
    (dictKeys ((runOps (Game.init n) ops).step o).1.grid.entities).Nodup := by
  have hwf := runOps_wf ops (Game.init n) (wf_init n)
  have hent := step_entries (runOps (Game.init n) ops) o hwf hv
  have htop : ∀ pe ∈
      (gravityLoop [] (runOps (Game.init n) ops).grid.entities).1,
      pe.1.y ≠ ((runOps (Game.init n) ops).grid.size : Int) - 1 := by
    intro pe hpe
    rcases mem_gravityLoop _ [] pe hpe with hin | ⟨qe, hqe, hy, rfl⟩
    · simp at hin
    · have hb := hwf.2.1 qe hqe
      have h4 := hb.2.2.2
      simp only [gravShift, MOVE]
      intro hcontra
      omega
  refine ⟨hent, htop, hv.2.2.2.2.2.2.1, ?_⟩
  rw [hent, dictKeys_append, List.nodup_append]
  refine ⟨gravityLoop_nodup _ [] (by simp [dictKeys]),
    spawnPairs_keys_nodup _ o hv, ?_⟩
  intro a ha hb2
  rcases List.mem_map.1 ha with ⟨pe, hpe, rfl⟩
  rcases List.mem_map.1 hb2 with ⟨qe, hqe, hkeyeq⟩
  have hy1 := htop pe hpe
  have hy2 := spawnPairs_mem_y _ o qe hqe
  rw [hkeyeq] at hy2
  exact hy1 hy2

theorem c10_step_no_overwrite_witness :
    ((runOps (Game.init 5) []).step ⟨1, ["D"], 4, [0, 3]⟩).1.grid.entities =
      (gravityLoop [] (runOps (Game.init 5) []).grid.entities).1 ++
        spawnPairs (runOps (Game.init 5) []).grid.size ⟨1, ["D"], 4, [0, 3]⟩ ∧
    (∀ pe ∈ (gravityLoop [] (runOps (Game.init 5) []).grid.entities).1,
      pe.1.y ≠ ((runOps (Game.init 5) []).grid.size : Int) - 1) ∧
    (⟨1, ["D"], 4, [0, 3]⟩ : SpawnOracle).positions.Nodup ∧
    (dictKeys ((runOps (Game.init 5) []).step
      ⟨1, ["D"], 4, [0, 3]⟩).1.grid.entities).Nodup :=
  c10_step_no_overwrite 5 [] ⟨1, ["D"], 4, [0, 3]⟩ (by decide)

end Hacker
